import Mathlib

/-!
Verification of the build-orchestration pipeline of `cargo-revolve`
(`src/commands/build.rs`, `src/config.rs`, `src/definitions.rs`) against its
natural-language specification.

The embedding is shallow: Rust paths (`PathBuf`) are modelled by `RPath`
(an absolute flag plus the list of normal components, which is exactly the
data Rust's component-based `Eq`/`Hash` on paths compares); the read-only
filesystem consulted by `expand_assets` is an oracle mapping an asset source
string to the directory tree found at `project_root.join(source)`; external
processes are oracles from an argv to an exit status; the Tera template
engine is an oracle from the serialized context to a rendered string.
The model covers configurations whose path strings are normalized
(no `.`/`..` segments), matching every path that appears in the repository's
configuration surface and tests.
-/

namespace Revolve

/-! ### Paths

`RPath` models a Rust `PathBuf` by its parsed components: `abs` records a
leading root separator, `parts` the normal components in order. This mirrors
Rust's `Path` equality and hashing, which compare component sequences
(so `/a/b`, `/a//b` and `/a/b/` are all equal). -/

structure RPath where
  abs : Bool
  parts : List String
deriving DecidableEq, Repr

/-! String primitives are modelled over `String.data` (the character list)
so that every definition evaluates inside the kernel; they agree with the
`str`/`String` operations the source calls. -/

/-- Models `str::split` on one separator character. -/
def splitChar (sep : Char) : List Char → List (List Char)
  | [] => [[]]
  | c :: cs =>
      let r := splitChar sep cs
      if c = sep then [] :: r
      else
        match r with
        | [] => [[c]]
        | w :: ws => (c :: w) :: ws

/-- Models `str::starts_with`. -/
def strStartsWith (s p : String) : Bool :=
  p.data.isPrefixOf s.data

/-- Models `str::ends_with`. -/
def strEndsWith (s p : String) : Bool :=
  p.data.reverse.isPrefixOf s.data.reverse

/-- The nonempty `/`-separated segments of a path string. -/
def pathParts (s : String) : List String :=
  ((splitChar '/' s.data).filter (fun w => w ≠ [])).map String.mk

/-- Joins components with `/` separators. -/
def joinSlash (parts : List String) : String :=
  String.mk (List.intercalate ['/'] (parts.map String.data))

/-- Lexicographic order on character lists (= UTF-8 byte order on the
strings involved here), as `Vec::<String>::sort` uses. -/
def charListLe : List Char → List Char → Bool
  | [], _ => true
  | _ :: _, [] => false
  | a :: as, b :: bs => if a < b then true else if b < a then false else charListLe as bs

/-- String comparison for sorting. -/
def strLe (s t : String) : Bool :=
  charListLe s.data t.data

/-- Models `PathBuf::from(s)` for a normalized path string: absolute iff it starts
with `/`; components are the nonempty `/`-separated segments. -/
def parsePath (s : String) : RPath :=
  ⟨strStartsWith s "/", pathParts s⟩

/-- Models `Path::to_string_lossy` on a normalized path. -/
def RPath.render (p : RPath) : String :=
  (if p.abs then "/" else "") ++ joinSlash p.parts

/-- Models `PathBuf::join` with a relative path given by its components. -/
def RPath.join (p : RPath) (rel : List String) : RPath :=
  ⟨p.abs, p.parts ++ rel⟩

/-- Models `Path::parent`: `None` when there is no normal component left to drop
(Rust returns `None` for `/` and for the empty path). -/
def RPath.parentPath (p : RPath) : Option RPath :=
  match p.parts with
  | [] => none
  | _ => some ⟨p.abs, p.parts.dropLast⟩

/-- Models `path.components().next().is_some()`: the root separator counts as a
component (`Path::new("/").components()` yields `RootDir`). -/
def RPath.hasComponent (p : RPath) : Bool :=
  p.abs || !p.parts.isEmpty

/-! ### Configuration data (`src/config.rs`) -/

/-- One entry of the `assets` array (`config.rs`): `mkdir` defaults to `true`
at deserialization time, so here it is always explicit. -/
structure Asset where
  source : String
  dest : String
  mode : Option String
  mkdir : Bool
deriving DecidableEq, Repr

/-- The `build_command` field: a single command string or a sequence of them. -/
inductive BuildCommand where
  | single (cmd : String)
  | sequence (cmds : List String)
deriving DecidableEq, Repr

/-- The `[package.metadata.revolve]` table (`config.rs`). -/
structure RevolveConfig where
  spec_template : String
  output_dir : Option String
  changelog : Option String
  build_flags : Option (List String)
  build_command : Option BuildCommand
  assets : Option (List Asset)
  verify_license : Option String
  verify_summary : Option String
deriving Repr

/-! ### Filesystem trees and `WalkDir`

A directory's contents are a list of trees in the order the OS yields them.
`walkDir` reproduces `walkdir::WalkDir`'s default traversal: the root is
yielded first, then each entry depth-first with a directory before its
contents. Entries are `(path relative to the walked root, is_dir)`. -/

inductive FsTree where
  | file (name : String)
  | dir (name : String) (children : List FsTree)

mutual

def walkFrom (pre : List String) : FsTree → List (List String × Bool)
  | .file n => [(pre ++ [n], false)]
  | .dir n cs => (pre ++ [n], true) :: walkFromList (pre ++ [n]) cs

def walkFromList (pre : List String) : List FsTree → List (List String × Bool)
  | [] => []
  | t :: ts => walkFrom pre t ++ walkFromList pre ts

end

/-- Models `WalkDir::new(root)` over a directory with the given children: the root
itself (relative path `[]`) comes first. -/
def walkDir (children : List FsTree) : List (List String × Bool) :=
  ([], true) :: walkFromList [] children

/-- The read-only filesystem oracle: `fs src = some children` exactly when
`project_root.join(src)` is a directory whose entries are `children`;
`none` when it is absent or not a directory. -/
def FS : Type :=
  String → Option (List FsTree)

/-! ### `expand_assets` (`build.rs` lines 681-780) -/

/-- The two failure modes of `expand_assets` (`bail!` sites). -/
inductive BuildError where
  | invalidAssetSource (source : String)
  | duplicateDestination (dest : String) (firstSource : String) (secondSource : String)
deriving DecidableEq, Repr

/-- The `bail!` format strings of `expand_assets`, verbatim. -/
def buildErrorMessage : BuildError → String
  | .invalidAssetSource s =>
      "Asset source '" ++ s ++
        "' is marked as a directory (ends with '/') but is not a directory on disk."
  | .duplicateDestination d s1 s2 =>
      "Duplicate asset destination found: '" ++ d ++
        "'.\n  - Provided by source: '" ++ s1 ++
        "'\n  - Also provided by source: '" ++ s2 ++ "'"

/-- Models `entry_path.strip_prefix(project_root)?.to_string_lossy()`: the walked
entry's path relative to the project root, i.e. the source directory's
components followed by the entry's relative components. -/
def expandedSource (src : String) (rel : List String) : String :=
  joinSlash (pathParts src ++ rel)

/-- The file asset pushed for one walked regular file (lines 739-744). -/
def mkExpandedAsset (a : Asset) (destBase : RPath) (rel : List String) : Asset :=
  ⟨expandedSource a.source rel, (destBase.join rel).render, a.mode, a.mkdir⟩

/-- Accumulator of `expand_assets`: `finalAssets` is the `final_assets`
vector, `destinationMap` the `destination_map` hash map (association list;
keys are only ever inserted when absent), `uniqueDirs` the `unique_dirs`
hash set (kept as an insertion-ordered duplicate-free list). -/
structure ExpandState where
  finalAssets : List Asset
  destinationMap : List (RPath × String)
  uniqueDirs : List RPath
deriving DecidableEq, Repr

/-- Models `HashMap::get` on the destination map. -/
def lookupDest (m : List (RPath × String)) (d : RPath) : Option String :=
  (m.find? (fun kv => kv.1 = d)).map (fun kv => kv.2)

/-- Models `HashSet::insert` (the set keeps the already-present element). -/
def insertDir (ds : List RPath) (d : RPath) : List RPath :=
  if d ∈ ds then ds else ds ++ [d]

/-- The walk loop of a directory asset (lines 709-745): directories feed
`unique_dirs` when `mkdir` is set; regular files are checked against the
destination map and appended as expanded file assets. -/
def processWalkEntries (a : Asset) (destBase : RPath) :
    ExpandState → List (List String × Bool) → Except BuildError ExpandState
  | st, [] => .ok st
  | st, (rel, isDir) :: rest =>
    let destPath := destBase.join rel
    if isDir then
      let st' := if a.mkdir then { st with uniqueDirs := insertDir st.uniqueDirs destPath } else st
      processWalkEntries a destBase st' rest
    else
      match lookupDest st.destinationMap destPath with
      | some existing => .error (.duplicateDestination destPath.render existing a.source)
      | none =>
          processWalkEntries a destBase
            { st with
                finalAssets := st.finalAssets ++ [mkExpandedAsset a destBase rel],
                destinationMap := st.destinationMap ++ [(destPath, a.source)] }
            rest

/-- One iteration of the `for asset in initial_assets` loop (lines 690-770). -/
def processAsset (fs : FS) (st : ExpandState) (a : Asset) : Except BuildError ExpandState :=
  if strEndsWith a.source "/" then
    match fs a.source with
    | none => .error (.invalidAssetSource a.source)
    | some children =>
        let destBase := parsePath a.dest
        let st1 :=
          if a.mkdir then { st with uniqueDirs := insertDir st.uniqueDirs destBase } else st
        processWalkEntries a destBase st1 (walkDir children)
  else
    let destPath := parsePath a.dest
    let st1 :=
      if a.mkdir then
        match destPath.parentPath with
        | some parent =>
            if parent.hasComponent then
              { st with uniqueDirs := insertDir st.uniqueDirs parent }
            else st
        | none => st
      else st
    match lookupDest st1.destinationMap destPath with
    | some existing => .error (.duplicateDestination destPath.render existing a.source)
    | none =>
        .ok { st1 with
                finalAssets := st1.finalAssets ++ [a],
                destinationMap := st1.destinationMap ++ [(destPath, a.source)] }

/-- Insertion sort on strings, mirroring `Vec::sort` on the rendered
directory paths (UTF-8 byte order and code-point order coincide). -/
def insertSorted (s : String) : List String → List String
  | [] => [s]
  | x :: xs => if strLe s x then s :: x :: xs else x :: insertSorted s xs

def sortStrings (l : List String) : List String :=
  l.foldr insertSorted []

/-- The function `expand_assets` (lines 681-780): expands directory assets into file
assets, detects duplicate destinations, and returns the expanded asset list
together with the sorted list of directories to create. -/
def expand_assets (fs : FS) (initialAssets : List Asset) :
    Except BuildError (List Asset × List String) := do
  let st ← initialAssets.foldlM (processAsset fs) ⟨[], [], []⟩
  pure (st.finalAssets, sortStrings (st.uniqueDirs.map RPath.render))

/-! ### Main-binary-RPM selection (`run`, lines 154-173) -/

/-- Models `Path::file_name().unwrap_or_default().to_string_lossy()` on a
normalized path (returns `""` when there is no final component). -/
def fileNameOf (path : String) : String :=
  ((pathParts path).getLast?).getD ""

/-- Models `str::contains` (substring search). -/
def containsSubstr (s pat : String) : Bool :=
  decide (pat.data <:+: s.data)

/-- The string `format!("{}-{}", package.name, package.version)`. -/
def expectedRpmNameStart (name version : String) : String :=
  name ++ "-" ++ version

/-- The predicate of the `artifacts.iter().find(...)` closure: filename
starts with `name-version` and is not a debuginfo/debugsource/source RPM. -/
def isMainBinaryRpm (name version : String) (path : String) : Bool :=
  let filename := fileNameOf path
  strStartsWith filename (expectedRpmNameStart name version)
    && !(containsSubstr filename "debuginfo")
    && !(containsSubstr filename "debugsource")
    && !(containsSubstr filename ".src.rpm")

/-- Models `artifacts.iter().find(|path| ...)`: the FIRST matching artifact. -/
def findMainBinaryRpm (artifacts : List String) (name version : String) : Option String :=
  artifacts.find? (isMainBinaryRpm name version)

/-- The verification-selection step of `run`: `bail!` when no artifact
matches, otherwise hand the found artifact to `verify_package`. -/
def selectVerificationTarget (artifacts : List String) (name version : String) :
    Except String String :=
  match findMainBinaryRpm artifacts name version with
  | some p => .ok p
  | none =>
      .error ("Verification failed: Could not find the main binary RPM to verify. Found artifacts: "
        ++ String.intercalate ", " artifacts)

/-! ### `verify_package` (`build.rs` lines 564-676)

The produced RPM is read through the external `rpm` crate; its observable
surface here is `RpmMetadata`. -/

/-- Package identity from the cargo manifest (name and rendered version). -/
structure PkgInfo where
  name : String
  version : String
  description : Option String
  license : Option String
deriving DecidableEq, Repr

/-- One entry of `metadata.get_file_entries()`: install path and the raw
mode word (the low 12 bits are the permission bits). -/
structure RpmFileEntry where
  path : String
  mode : Nat
deriving DecidableEq, Repr

/-- The metadata surface of the opened RPM: `none` for license/summary
models a `get_*` error, turned into `"N/A"` by `unwrap_or`. -/
structure RpmMetadata where
  name : String
  version : String
  license : Option String
  summary : Option String
  fileEntries : List RpmFileEntry
deriving DecidableEq, Repr

/-- The `verify_package` failures: the early `?`-return on an unparsable octal
mode string, and the final count-bearing `bail!`. -/
inductive VerifyError where
  | invalidMode (modeStr : String) (source : String)
  | issuesFound (count : Nat)
deriving DecidableEq, Repr

/-- Models `u16::from_str_radix(s, 8)`: all digits octal and the value fits. -/
def parseOctal (s : String) : Option Nat :=
  if s.data.isEmpty then none
  else if s.data.all (fun c => '0' ≤ c && c ≤ '7') then
    let v := s.data.foldl (fun acc c => acc * 8 + (c.toNat - '0'.toNat)) 0
    if v < 65536 then some v else none
  else none

/-- Lookup in the `actual_files_with_meta` hash map. The map is collected
from the entry list, so a repeated path keeps the last entry; keys are
`PathBuf`s compared by components. -/
def lookupFileEntry (entries : List RpmFileEntry) (dest : String) : Option RpmFileEntry :=
  (entries.reverse).find? (fun e => decide (parsePath e.path = parsePath dest))

/-- Issues contributed by one declared asset (lines 631-666): a missing
destination counts one; a declared mode that parses but mismatches the
entry's low 12 permission bits counts one; an unparsable mode aborts. -/
def assetIssues (entries : List RpmFileEntry) (a : Asset) : Except VerifyError Nat :=
  match lookupFileEntry entries a.dest with
  | none => .ok 1
  | some fe =>
      match a.mode with
      | none => .ok 0
      | some ms =>
          match parseOctal ms with
          | none => .error (.invalidMode ms a.source)
          | some m => .ok (if fe.mode &&& 0o7777 = m then 0 else 1)

/-- The function `verify_package`: sequentially accumulates the `issues_found` counter
over name, version, optional license, optional summary and every declared
asset, then fails with the count iff it is positive. -/
def verify_package (rpm : RpmMetadata) (pkg : PkgInfo) (cfg : RevolveConfig) :
    Except VerifyError Unit := do
  let i0 : Nat := if rpm.name = pkg.name then 0 else 1
  let i1 := i0 + (if rpm.version = pkg.version then 0 else 1)
  let i2 := i1 +
    (match cfg.verify_license with
     | none => 0
     | some l => if rpm.license.getD "N/A" = l then 0 else 1)
  let i3 := i2 +
    (match cfg.verify_summary with
     | none => 0
     | some s => if rpm.summary.getD "N/A" = s then 0 else 1)
  let total ←
    match cfg.assets with
    | none => pure i3
    | some assets =>
        assets.foldlM (fun acc a => do
          let n ← assetIssues rpm.fileEntries a
          pure (acc + n)) i3
  if total > 0 then throw (.issuesFound total) else pure ()

/-- Restatement of the specification's mismatch accounting for one asset,
for comparison with the implementation (an unparsable declared mode is out
of the comparison's domain and counts zero here). -/
def specAssetMismatch (entries : List RpmFileEntry) (a : Asset) : Nat :=
  match lookupFileEntry entries a.dest with
  | none => 1
  | some fe =>
      match a.mode with
      | none => 0
      | some ms =>
          match parseOctal ms with
          | none => 0
          | some m => if fe.mode &&& 0o7777 = m then 0 else 1

/-- Restatement of the specification's total mismatch count: the number of
failing checks across identity, optional license/summary and all assets. -/
def specMismatchCount (rpm : RpmMetadata) (pkg : PkgInfo) (cfg : RevolveConfig) : Nat :=
  (if rpm.name = pkg.name then 0 else 1)
  + (if rpm.version = pkg.version then 0 else 1)
  + (match cfg.verify_license with
     | none => 0
     | some l => if rpm.license.getD "N/A" = l then 0 else 1)
  + (match cfg.verify_summary with
     | none => 0
     | some s => if rpm.summary.getD "N/A" = s then 0 else 1)
  + ((cfg.assets.getD []).map (specAssetMismatch rpm.fileEntries)).sum

/-! ### Shell-word tokenization

Modelled from the spec: the external `shlex` collaborator tokenizes each
build command string "with shell-word-splitting semantics rather than naive
whitespace splitting, so quoted arguments survive", returning no token list
on a malformed string (unterminated quote or dangling escape). Whitespace
separates words; single quotes group verbatim; double quotes group with
backslash escapes; a backslash escapes the next character (a backslash
before a newline is a line continuation). -/

/-- Word-splitting whitespace. -/
def isShlexSpace (c : Char) : Bool :=
  c = Char.ofNat 32 || c = Char.ofNat 9 || c = Char.ofNat 10 || c = Char.ofNat 13

/-- Tokenizer state: outside/inside quotes, or just after a backslash. -/
inductive ShlexMode where
  | plain
  | single
  | double
  | escPlain
  | escDouble
deriving DecidableEq, Repr

/-- Modelled from the spec: the external `shlex` collaborator's word
splitting. The tokenizer state machine: `cur` is the word being accumulated
(distinguishing "no word open" from an open empty word produced by quotes),
`ws` the words emitted so far. Ending inside a quote or after a dangling
backslash is a parse failure. -/
def shlexRun : List Char → ShlexMode → Option (List Char) → List (List Char) →
    Option (List (List Char))
  | [], .plain, none, ws => some ws
  | [], .plain, some w, ws => some (ws ++ [w])
  | [], _, _, _ => none
  | c :: rest, .plain, cur, ws =>
      if isShlexSpace c then
        match cur with
        | none => shlexRun rest .plain none ws
        | some w => shlexRun rest .plain none (ws ++ [w])
      else if c = Char.ofNat 39 then shlexRun rest .single (some (cur.getD [])) ws
      else if c = Char.ofNat 34 then shlexRun rest .double (some (cur.getD [])) ws
      else if c = Char.ofNat 92 then shlexRun rest .escPlain cur ws
      else shlexRun rest .plain (some (cur.getD [] ++ [c])) ws
  | c :: rest, .single, cur, ws =>
      if c = Char.ofNat 39 then shlexRun rest .plain cur ws
      else shlexRun rest .single (some (cur.getD [] ++ [c])) ws
  | c :: rest, .double, cur, ws =>
      if c = Char.ofNat 34 then shlexRun rest .plain cur ws
      else if c = Char.ofNat 92 then shlexRun rest .escDouble cur ws
      else shlexRun rest .double (some (cur.getD [] ++ [c])) ws
  | c :: rest, .escPlain, cur, ws =>
      if c = Char.ofNat 10 then shlexRun rest .plain cur ws
      else shlexRun rest .plain (some (cur.getD [] ++ [c])) ws
  | c :: rest, .escDouble, cur, ws =>
      shlexRun rest .double (some (cur.getD [] ++ [c])) ws

/-- Models `shlex::split`. -/
def shlexSplit (s : String) : Option (List String) :=
  (shlexRun s.data .plain none []).map (fun ws => ws.map (fun w => String.mk w))

/-! ### `execute_build_process` (`build.rs` lines 348-446)

Spawned processes are an oracle from an argv to the exit status the child
would produce; the trace of spawned argvs is returned so that "step X never
ran" is expressible. -/

/-- Filesystem/process effects of one pipeline run, in program order. -/
inductive Effect where
  | removeDirAll (path : String)
  | createDirAll (path : String)
  | writeArchive (path : String)
  | writeFile (path : String)
  | copyFile (src dest : String)
  | spawnProcess (argv : List String)
  | spawnRpmbuild (args : List String)
deriving DecidableEq, Repr

/-- Failures of the build step: an untokenizable command string, or a step
exiting nonzero (`bail!` carries the command string and the status). -/
inductive StepError where
  | parseFailure (cmd : String)
  | commandFailed (cmd : String) (status : Int)
deriving DecidableEq, Repr

/-- The error text of the custom-command `bail!` (line 411). -/
def stepErrorMessage : StepError → String
  | .parseFailure cmd => "Failed to parse command string: " ++ cmd
  | .commandFailed cmd status =>
      "Custom build command failed with exit code " ++ toString status
        ++ ": `" ++ cmd ++ "`"

/-- The `for command_str in commands` loop (lines 392-417): tokenize with
`shlex`, skip empty commands, spawn, abort at the first nonzero status. -/
def runBuildSteps (exec : List String → Int) :
    List String → List (List String) → List (List String) × Option StepError
  | [], trace => (trace, none)
  | cmdStr :: rest, trace =>
      match shlexSplit cmdStr with
      | none => (trace, some (.parseFailure cmdStr))
      | some [] => runBuildSteps exec rest trace
      | some parts =>
          let status := exec parts
          if status = 0 then runBuildSteps exec rest (trace ++ [parts])
          else (trace ++ [parts], some (.commandFailed cmdStr status))

/-- The argvs a command list tokenizes to, empty commands skipped. -/
def parsedSteps (cmds : List String) : List (List String) :=
  cmds.filterMap (fun p =>
    match shlexSplit p with
    | some [] => none
    | some parts => some parts
    | none => none)

/-- A `BuildCommand::Single` runs as a one-element sequence. -/
def commandList : BuildCommand → List String
  | .single c => [c]
  | .sequence cs => cs

/-- The default `cargo build` argv (lines 421-436): configured flags are
appended, and `--release` is added only when no flags were configured. -/
def cargoArgv (targetDir : String) (cfg : RevolveConfig) : List String :=
  ["cargo", "build", "--target-dir", targetDir]
    ++ cfg.build_flags.getD []
    ++ (if cfg.build_flags.isNone then ["--release"] else [])

/-- The function `execute_build_process`: with a custom command configured, a dry run
spawns nothing; otherwise the steps run through `runBuildSteps`. Without
one, `cargo build` runs (also on a dry run, as in the source). -/
def execute_build_process (exec : List String → Int) (cfg : RevolveConfig)
    (targetDir : String) (dryRun : Bool) : List Effect × Option StepError :=
  match cfg.build_command with
  | some bc =>
      if dryRun then ([], none)
      else
        let (trace, err) := runBuildSteps exec (commandList bc) []
        (trace.map Effect.spawnProcess, err)
  | none =>
      let argv := cargoArgv targetDir cfg
      let status := exec argv
      ([Effect.spawnProcess argv],
        if status = 0 then none else some (.commandFailed "cargo build" status))

/-! ### `render_spec` (`build.rs` lines 189-266)

The Tera engine is an oracle from the built context to a rendered string;
template loading is a boolean oracle. `readFile` models
`fs::read_to_string`: `none` is a read error. -/

/-- The `TemplateContext` handed to Tera: `pkg` section plus the builder
section of `definitions.rs` (note the source passes `created_dirs` although
`definitions.rs` declares no such field; it is carried here as data). -/
structure TemplateCtx where
  pkg : PkgInfo
  specTemplate : String
  archiveRootDir : String
  changelog : Option String
  assets : Option (List Asset)
  buildFlags : Option (List String)
  createdDirs : Option (List String)
deriving DecidableEq, Repr

/-- The keys serde serializes for the builder section: the three optional
fields carry `skip_serializing_if Option::is_none`, so each appears exactly
when it is `some`. -/
def builderSerializedKeys (ctx : TemplateCtx) : List String :=
  ["spec_template", "archive_root_dir"]
    ++ (if ctx.changelog.isSome then ["changelog"] else [])
    ++ (if ctx.assets.isSome then ["assets"] else [])
    ++ (if ctx.buildFlags.isSome then ["build_flags"] else [])

/-- The `render_spec` failures: missing template or engine render error. -/
inductive RenderError where
  | templateLoadFailed (path : String)
  | templateRenderFailed (msg : String)
deriving DecidableEq, Repr

/-- Builds the context from a config, package and changelog content. -/
def mkTemplateCtx (cfg : RevolveConfig) (pkg : PkgInfo)
    (changelogContent : Option String) (createdDirs : Option (List String)) :
    TemplateCtx :=
  ⟨pkg, cfg.spec_template, pkg.name ++ "-" ++ pkg.version,
    changelogContent, cfg.assets, cfg.build_flags, createdDirs⟩

/-- The function `render_spec`: reads the optional changelog (a failed read is logged
and yields `none`, never an error), loads and renders the template, writes
the rendered spec, and returns the path and content. -/
def render_spec (templateLoadOk : Bool) (tera : TemplateCtx → Except String String)
    (readFile : String → Option String) (cfg : RevolveConfig) (pkg : PkgInfo)
    (buildDir : String) (createdDirs : Option (List String)) :
    Except RenderError (String × String × List Effect) :=
  let changelogContent := cfg.changelog.bind readFile
  if !templateLoadOk then .error (.templateLoadFailed cfg.spec_template)
  else
    match tera (mkTemplateCtx cfg pkg changelogContent createdDirs) with
    | .error e => .error (.templateRenderFailed e)
    | .ok rendered =>
        let specPath := buildDir ++ "/" ++ pkg.name ++ "-" ++ pkg.version ++ ".spec"
        .ok (specPath, rendered, [Effect.writeFile specPath])

/-! ### `create_artifact_archive` (`build.rs` lines 268-311) -/

/-- Resolution of an asset source's on-disk location (lines 288-295):
`target/`-prefixed sources resolve under the true target directory with the
prefix stripped; everything else under the project directory. -/
def resolveSourcePath (targetDir projectDir : String) (src : String) : String :=
  if strStartsWith src "target/" then targetDir ++ "/" ++ String.mk (src.data.drop 7)
  else projectDir ++ "/" ++ src

/-- The archive file name `{name}-{version}.tar.gz`. -/
def archiveFileName (pkg : PkgInfo) : String :=
  pkg.name ++ "-" ++ pkg.version ++ ".tar.gz"

/-- The first configured asset whose resolved source does not exist. -/
def firstMissingAsset (fileExists : String → Bool) (targetDir projectDir : String) :
    List Asset → Option String
  | [] => none
  | a :: rest =>
      let p := resolveSourcePath targetDir projectDir a.source
      if fileExists p then firstMissingAsset fileExists targetDir projectDir rest
      else some p

/-- The `bail!` text for a missing asset source (lines 298-301). -/
def missingAssetMessage (path : String) : String :=
  "Asset source file not found: " ++ path
    ++ ". Please run 'cargo build' first or ensure the path is correct."

/-- The function `create_artifact_archive`: on a dry run nothing is touched and the
deterministic archive path is returned; on a real run the archive file is
created and each configured asset is resolved and must exist. -/
def create_artifact_archive (fileExists : String → Bool) (cfg : RevolveConfig)
    (pkg : PkgInfo) (projectDir targetDir : String) (dryRun : Bool) :
    Except String (String × List Effect) :=
  let archivePath := projectDir ++ "/target/" ++ archiveFileName pkg
  if dryRun then .ok (archivePath, [])
  else
    match firstMissingAsset fileExists targetDir projectDir (cfg.assets.getD []) with
    | some p => .error (missingAssetMessage p)
    | none => .ok (archivePath, [Effect.writeArchive archivePath])

/-! ### `collect_artifacts` (`build.rs` lines 502-562) and the orchestrator
(`run`, lines 22-178) -/

/-- The function `collect_artifacts`: the RPMs found under `RPMS` are an oracle input;
with an `output_dir` configured each is copied there and the destination
copy becomes the artifact of record. -/
def collect_artifacts (producedRpms : List String) (outputDir : Option String)
    (projectDir : String) : List String × List Effect :=
  match outputDir with
  | none => (producedRpms, [])
  | some d =>
      let destDir := projectDir ++ "/" ++ d
      (producedRpms.map (fun p => destDir ++ "/" ++ fileNameOf p),
        Effect.createDirAll destDir ::
          producedRpms.map (fun p => Effect.copyFile p (destDir ++ "/" ++ fileNameOf p)))

/-- Pipeline-level failures, one per `?`/`bail!` exit of `run`. -/
inductive PipelineError where
  | toolNotFound
  | buildStep (e : StepError)
  | expandFailed (e : BuildError)
  | archiveFailed (msg : String)
  | renderFailed (e : RenderError)
  | rpmbuildFailed (status : Int)
  | noMainBinaryRpm (artifacts : List String)
  | rpmOpenFailed (path : String)
  | verifyFailed (e : VerifyError)
deriving DecidableEq, Repr

/-- Observable outcome of one `run`: effect trace in program order, the
archive path returned by `create_artifact_archive` (when not skipped), the
rendered spec path/content, and the artifacts of record. -/
structure PipelineResult where
  trace : List Effect
  archivePath : Option String
  specPath : String
  specContent : String
  artifacts : List String
deriving DecidableEq, Repr

/-- The `rpmbuild` argv of `execute_rpmbuild` (lines 471-488). -/
def rpmbuildArgs (rpmbuildDir specPath : String) (fromArchive : Bool)
    (projectDir : String) : List String :=
  ("--define=_topdir " ++ rpmbuildDir) ::
    (if fromArchive then ["-bb", specPath]
     else ["-bb", specPath, "--define=_sourcedir " ++ projectDir])

/-- The `build` command end to end (`run`): environment check, build step,
asset expansion, prior-state cleanup, directory prep, optional archive,
render, then either the dry-run report or rpmbuild + collection + optional
verification. Oracles: `exec` (process exit statuses), `fs` (directory
trees), `fileExists`, `readFile`, template loading/rendering, the rpmbuild
exit status, the RPMs found on disk, and the RPM metadata reader. -/
def runPipeline (rpmbuildFound : Bool) (exec : List String → Int) (fs : FS)
    (fileExists : String → Bool) (readFile : String → Option String)
    (templateLoadOk : Bool) (tera : TemplateCtx → Except String String)
    (rpmbuildStatus : Int) (producedRpms : List String)
    (rpmMeta : String → Option RpmMetadata)
    (cfg : RevolveConfig) (pkg : PkgInfo) (projectDir targetDir : String)
    (dryRun noArchive verify revolveDirExists : Bool) :
    Except PipelineError PipelineResult := do
  if !rpmbuildFound then throw .toolNotFound
  let (buildTrace, buildErr) := execute_build_process exec cfg targetDir dryRun
  match buildErr with
  | some e => throw (.buildStep e)
  | none => do
    let (cfg2, createdDirs) ←
      match cfg.assets with
      | some l =>
          match expand_assets fs l with
          | .error e => throw (.expandFailed e)
          | .ok (files, dirs) =>
              pure ({ cfg with assets := some files }, some dirs)
      | none => pure (cfg, (none : Option (List String)))
    let revolveDir := projectDir ++ "/target/revolve"
    let cleanupTrace :=
      if !dryRun && revolveDirExists then [Effect.removeDirAll revolveDir] else []
    let buildDir := revolveDir ++ "/build"
    let rpmbuildDir := revolveDir ++ "/rpmbuild"
    let dirTrace := [Effect.createDirAll buildDir]
    let (archivePath?, archiveTrace) ←
      if !noArchive then
        match create_artifact_archive fileExists cfg2 pkg projectDir targetDir dryRun with
        | .error m => throw (.archiveFailed m)
        | .ok (p, t) => pure ((some p : Option String), t)
      else pure ((none : Option String), ([] : List Effect))
    let (specPath, specContent, renderTrace) ←
      match render_spec templateLoadOk tera readFile cfg2 pkg buildDir createdDirs with
      | .error e => throw (.renderFailed e)
      | .ok r => pure r
    let preTrace := buildTrace ++ cleanupTrace ++ dirTrace ++ archiveTrace ++ renderTrace
    if dryRun then
      pure ⟨preTrace, archivePath?, specPath, specContent, []⟩
    else do
      let sourcesDir := rpmbuildDir ++ "/SOURCES"
      let specsDir := rpmbuildDir ++ "/SPECS"
      let finalSpecPath := specsDir ++ "/" ++ pkg.name ++ "-" ++ pkg.version ++ ".spec"
      let copyTrace :=
        [Effect.createDirAll sourcesDir, Effect.createDirAll specsDir,
         Effect.copyFile specPath finalSpecPath] ++
        (match archivePath? with
         | some ap => [Effect.copyFile ap (sourcesDir ++ "/" ++ archiveFileName pkg)]
         | none => [])
      let rbTrace := copyTrace ++
        [Effect.spawnRpmbuild
          (rpmbuildArgs rpmbuildDir finalSpecPath archivePath?.isSome projectDir)]
      if rpmbuildStatus ≠ 0 then throw (.rpmbuildFailed rpmbuildStatus)
      else do
        let (artifacts, collectTrace) :=
          collect_artifacts producedRpms cfg2.output_dir projectDir
        let fullTrace := preTrace ++ rbTrace ++ collectTrace
        if verify then
          match findMainBinaryRpm artifacts pkg.name pkg.version with
          | none => throw (.noMainBinaryRpm artifacts)
          | some rp =>
              match rpmMeta rp with
              | none => throw (.rpmOpenFailed rp)
              | some md =>
                  match verify_package md pkg cfg2 with
                  | .error e => throw (.verifyFailed e)
                  | .ok _ => pure ⟨fullTrace, archivePath?, specPath, specContent, artifacts⟩
        else
          pure ⟨fullTrace, archivePath?, specPath, specContent, artifacts⟩

/-! ### Derived notions used in the statements -/

/-- The relative paths of the regular files among walked entries. -/
def walkFiles (entries : List (List String × Bool)) : List (List String) :=
  (entries.filter (fun e => !e.2)).map (fun e => e.1)

/-- The destination paths a declared asset resolves to: a file asset
resolves to its own parsed `dest`; a directory asset resolves to its `dest`
joined with each walked regular file's relative path. -/
def resolvedDests (fs : FS) (a : Asset) : List RPath :=
  if strEndsWith a.source "/" then
    match fs a.source with
    | none => []
    | some children => (walkFiles (walkDir children)).map (fun rel => (parsePath a.dest).join rel)
  else [parsePath a.dest]

/-- The destination keys recorded so far. -/
def destKeys (st : ExpandState) : List RPath :=
  st.destinationMap.map (fun kv => kv.1)

/-- Holds when `needle` occurs as a contiguous substring of `hay`. -/
def containsStr (hay needle : String) : Prop :=
  needle.data <:+: hay.data

/-! ## Claim C4 — file assets and their parent directory entries

The claim's "the parent is not the archive/package root itself (so, in
particular, a root-level destination contributes no directory entry)" does
not hold of the code: `parent.components().next().is_some()` is true for
the parent `/` of a root-level absolute destination (the root separator is
a component), so that parent IS added to the directory set. Only an empty
relative parent is skipped. -/

/-- Claim C4 as stated is false: for the file asset
`{source: "f.txt", dest: "/f", mkdir: true}` — a root-level destination —
`expand_assets` returns the directory set `["/"]`, not the empty one the
claim requires; the asset itself is passed through unchanged. -/
theorem C4_counterexample :
    expand_assets (fun _ => none) [⟨"f.txt", "/f", none, true⟩] =
      .ok ([⟨"f.txt", "/f", none, true⟩], ["/"]) ∧ ("/" : String) ≠ "" := by
  constructor
  · rfl
  · decide

/-- Claim C4 (amended): a file asset (no trailing separator on `source`) is
passed through unchanged, and its immediate parent destination directory is
added to the directory set iff `mkdir` is true and the parent path exists
and has at least one component — the root separator included, so only an
empty relative parent is skipped (an absolute root-level destination still
contributes `/`). -/
theorem C4_theorem (fs : FS) (a : Asset) (h : strEndsWith a.source "/" = false) :
    expand_assets fs [a] =
      .ok ([a],
        match (parsePath a.dest).parentPath with
        | some parent => if a.mkdir && parent.hasComponent then [parent.render] else []
        | none => []) := by
  simp only [expand_assets, List.foldlM_cons, List.foldlM_nil, processAsset, h,
    Bool.false_eq_true, if_false]
  cases hp : (parsePath a.dest).parentPath with
  | none =>
      cases hm : a.mkdir <;>
        simp [hp, lookupDest, Except.bind, sortStrings]
  | some parent =>
      cases hm : a.mkdir with
      | false => simp [hp, lookupDest, Except.bind, sortStrings]
      | true =>
          cases hc : parent.hasComponent with
          | false => simp [hp, hc, lookupDest, Except.bind, sortStrings]
          | true =>
              simp [hp, hc, lookupDest, insertDir, Except.bind, sortStrings, insertSorted]

/-- Claim C4 witness: instantiating the amended theorem at the asset
`{source: "app.conf", dest: "/etc/app/app.conf", mkdir: true}` yields
exactly the parent directory entry `/etc/app`. -/
theorem C4_witness :
    expand_assets (fun _ => none) [⟨"app.conf", "/etc/app/app.conf", none, true⟩] =
      .ok ([⟨"app.conf", "/etc/app/app.conf", none, true⟩], ["/etc/app"]) := by
  have h := C4_theorem (fun _ => none) ⟨"app.conf", "/etc/app/app.conf", none, true⟩ rfl
  simpa using h

/-! ## Claim C10 — no existence checks on a dry-run archive -/

/-- Claim C10: in dry-run mode `create_artifact_archive` consults no
existence oracle and mutates nothing — it returns the would-be archive path
(with an empty effect trace) for every filesystem, including one where
every declared asset source is absent — and conversely any error it returns
can only arise from a real (non-dry-run) invocation. -/
theorem C10_theorem :
    (∀ (fileExists : String → Bool) (cfg : RevolveConfig) (pkg : PkgInfo)
        (projectDir targetDir : String),
      create_artifact_archive fileExists cfg pkg projectDir targetDir true =
        .ok (projectDir ++ "/target/" ++ archiveFileName pkg, [])) ∧
    (∀ (fileExists : String → Bool) (cfg : RevolveConfig) (pkg : PkgInfo)
        (projectDir targetDir : String) (dryRun : Bool) (msg : String),
      create_artifact_archive fileExists cfg pkg projectDir targetDir dryRun = .error msg →
      dryRun = false) := by
  constructor
  · intro fileExists cfg pkg projectDir targetDir
    rfl
  · intro fileExists cfg pkg projectDir targetDir dryRun msg h
    cases dryRun with
    | false => rfl
    | true => simp [create_artifact_archive] at h

/-- Claim C10 witness: with every file absent, a real run fails with the
missing-asset error while the dry run of the very same configuration
returns the deterministic path. -/
theorem C10_witness :
    create_artifact_archive (fun _ => false)
        ⟨"t.spec", none, none, none, none, some [⟨"f.txt", "/f", none, true⟩], none, none⟩
        ⟨"pkg", "1.0.0", none, none⟩ "proj" "tgt" false =
      .error (missingAssetMessage "proj/f.txt") ∧
    (false = false) ∧
    create_artifact_archive (fun _ => false)
        ⟨"t.spec", none, none, none, none, some [⟨"f.txt", "/f", none, true⟩], none, none⟩
        ⟨"pkg", "1.0.0", none, none⟩ "proj" "tgt" true =
      .ok ("proj/target/pkg-1.0.0.tar.gz", []) := by
  refine ⟨rfl, ?_, ?_⟩
  · exact C10_theorem.2 (fun _ => false)
      ⟨"t.spec", none, none, none, none, some [⟨"f.txt", "/f", none, true⟩], none, none⟩
      ⟨"pkg", "1.0.0", none, none⟩ "proj" "tgt" false (missingAssetMessage "proj/f.txt") rfl
  · have h := C10_theorem.1 (fun _ => false)
      ⟨"t.spec", none, none, none, none, some [⟨"f.txt", "/f", none, true⟩], none, none⟩
      ⟨"pkg", "1.0.0", none, none⟩ "proj" "tgt"
    simpa using h

/-! ## Claim C7 — a missing changelog never aborts the render -/

/-- Claim C7: when the configured changelog file cannot be read, the
changelog field is omitted from the serialized template context, rendering
proceeds exactly as for a configuration with no changelog at all, and the
outcome of `render_spec` is the template engine's outcome — the failed read
never aborts the render. -/
theorem C7_theorem (tera : TemplateCtx → Except String String)
    (readFile : String → Option String) (cfg : RevolveConfig) (pkg : PkgInfo)
    (buildDir : String) (createdDirs : Option (List String)) (f : String)
    (hc : cfg.changelog = some f) (hr : readFile f = none) :
    "changelog" ∉ builderSerializedKeys (mkTemplateCtx cfg pkg none createdDirs) ∧
    render_spec true tera readFile cfg pkg buildDir createdDirs =
      render_spec true tera (fun _ => none) { cfg with changelog := none } pkg buildDir
        createdDirs ∧
    (render_spec true tera readFile cfg pkg buildDir createdDirs).isOk =
      (tera (mkTemplateCtx cfg pkg none createdDirs)).isOk := by
  refine ⟨?_, ?_, ?_⟩
  · cases cfg.assets <;> cases cfg.build_flags <;>
      simp [builderSerializedKeys, mkTemplateCtx]
  · simp [render_spec, hc, hr, mkTemplateCtx]
  · cases ht : tera (mkTemplateCtx cfg pkg none createdDirs) <;>
      · simp only [mkTemplateCtx] at ht
        simp only [render_spec, hc, hr, mkTemplateCtx, ht, Option.some_bind, Bool.not_true,
          Bool.false_eq_true, if_false]
        rfl

/-- Claim C7 witness: a configuration naming an unreadable
`CHANGELOG.md` still renders successfully. -/
theorem C7_witness :
    "changelog" ∉ builderSerializedKeys
      (mkTemplateCtx ⟨"t.spec", none, some "CHANGELOG.md", none, none, none, none, none⟩
        ⟨"pkg", "1.0.0", none, none⟩ none none) ∧
    render_spec true (fun _ => .ok "SPEC") (fun _ => none)
        ⟨"t.spec", none, some "CHANGELOG.md", none, none, none, none, none⟩
        ⟨"pkg", "1.0.0", none, none⟩ "bd" none =
      render_spec true (fun _ => .ok "SPEC") (fun _ => none)
        ⟨"t.spec", none, none, none, none, none, none, none⟩
        ⟨"pkg", "1.0.0", none, none⟩ "bd" none ∧
    (render_spec true (fun _ => .ok "SPEC") (fun _ => none)
        ⟨"t.spec", none, some "CHANGELOG.md", none, none, none, none, none⟩
        ⟨"pkg", "1.0.0", none, none⟩ "bd" none).isOk =
      ((fun (_ : TemplateCtx) => (.ok "SPEC" : Except String String))
        (mkTemplateCtx ⟨"t.spec", none, some "CHANGELOG.md", none, none, none, none, none⟩
          ⟨"pkg", "1.0.0", none, none⟩ none none)).isOk :=
  C7_theorem (fun _ => .ok "SPEC") (fun _ => none)
    ⟨"t.spec", none, some "CHANGELOG.md", none, none, none, none, none⟩
    ⟨"pkg", "1.0.0", none, none⟩ "bd" none "CHANGELOG.md" rfl rfl

/-! ## Claim C3 — main-binary-RPM selection for verification

The zero-candidate half of the claim holds, but the ambiguity half does
not: the selection uses `Iterator::find`, which silently returns the FIRST
matching artifact; more than one matching candidate raises no error. -/

/-- Claim C3 as stated is false at this input: two artifacts both pass the
primary-binary filter, yet the selection step succeeds (with the first)
instead of failing on the ambiguity. -/
theorem C3_counterexample :
    isMainBinaryRpm "pkg" "1.0.0" "out/pkg-1.0.0-1.x86_64.rpm" = true ∧
    isMainBinaryRpm "pkg" "1.0.0" "out/pkg-1.0.0-1.aarch64.rpm" = true ∧
    selectVerificationTarget
        ["out/pkg-1.0.0-1.x86_64.rpm", "out/pkg-1.0.0-1.aarch64.rpm"] "pkg" "1.0.0" =
      .ok "out/pkg-1.0.0-1.x86_64.rpm" := by
  exact ⟨rfl, rfl, rfl⟩

/-- Claim C3 (amended): the verification step selects the FIRST artifact
whose filename starts with `name-version` while excluding debuginfo,
debugsource and `.src.rpm` artifacts, and fails with an error exactly when
zero candidates match; an ambiguous match selects the first candidate and
raises no error. -/
theorem C3_theorem (pre post : List String) (x name version : String)
    (hpre : ∀ y ∈ pre, isMainBinaryRpm name version y = false)
    (hx : isMainBinaryRpm name version x = true) :
    selectVerificationTarget (pre ++ x :: post) name version = .ok x ∧
    ∀ artifacts : List String,
      (∀ y ∈ artifacts, isMainBinaryRpm name version y = false) →
      ∃ msg, selectVerificationTarget artifacts name version = .error msg := by
  constructor
  · unfold selectVerificationTarget findMainBinaryRpm
    have hfind : List.find? (isMainBinaryRpm name version) (pre ++ x :: post) = some x := by
      induction pre with
      | nil => simp [List.find?_cons, hx]
      | cons a as ih =>
          have ha := hpre a (by simp)
          have ih' := ih (fun y hy => hpre y (by simp [hy]))
          simpa [List.find?_cons, ha] using ih'
    rw [hfind]
  · intro artifacts hall
    unfold selectVerificationTarget findMainBinaryRpm
    have hfind : List.find? (isMainBinaryRpm name version) artifacts = none :=
      List.find?_eq_none.mpr (fun y hy => by simp [hall y hy])
    rw [hfind]
    exact ⟨_, rfl⟩

/-- Claim C3 witness: a debuginfo artifact is skipped and the primary
binary RPM after it is selected; a list without any matching artifact
yields the selection error. -/
theorem C3_witness :
    selectVerificationTarget
        ["out/pkg-1.0.0-1.debuginfo.rpm", "out/pkg-1.0.0-1.x86_64.rpm"] "pkg" "1.0.0" =
      .ok "out/pkg-1.0.0-1.x86_64.rpm" ∧
    ∃ msg, selectVerificationTarget ["other-2.0-1.x86_64.rpm"] "pkg" "1.0.0" = .error msg := by
  have h := C3_theorem ["out/pkg-1.0.0-1.debuginfo.rpm"] [] "out/pkg-1.0.0-1.x86_64.rpm"
    "pkg" "1.0.0"
    (by intro y hy; simp at hy; subst hy; rfl) rfl
  exact ⟨h.1, h.2 ["other-2.0-1.x86_64.rpm"] (by intro y hy; simp at hy; subst hy; rfl)⟩

/-! ## Claim C6 — custom build steps: ordered execution, first failure aborts -/

theorem strData_append (a b : String) : (a ++ b).data = a.data ++ b.data := rfl

theorem containsStr_parts (x y z hay : String)
    (h : hay.data = x.data ++ y.data ++ z.data) : containsStr hay y :=
  ⟨x.data, z.data, by rw [← h]⟩

/-- The failing run of the step loop: all of `pre` tokenizes and succeeds
(or is empty and skipped), `c` tokenizes to a nonempty argv whose execution
exits nonzero; then the loop's trace is exactly the argvs of `pre` followed
by `c`'s argv — nothing after `c` is spawned — and the loop stops with the
command-failed error carrying `c` and its status. -/
theorem runBuildSteps_fail (exec : List String → Int) (c : String) (argvc : List String)
    (post : List String) (hc : shlexSplit c = some argvc) (hne : argvc ≠ [])
    (hfail : exec argvc ≠ 0) :
    ∀ (pre : List String) (trace : List (List String)),
      (∀ p ∈ pre, ∃ argv, shlexSplit p = some argv ∧ (argv = [] ∨ exec argv = 0)) →
      runBuildSteps exec (pre ++ c :: post) trace =
        (trace ++ parsedSteps pre ++ [argvc], some (.commandFailed c (exec argvc))) := by
  intro pre
  induction pre with
  | nil =>
      intro trace _
      match argvc, hne, hc, hfail with
      | a :: as, _, hc, hfail =>
          simp only [List.nil_append, runBuildSteps, hc, if_neg hfail]
          simp [parsedSteps]
  | cons p ps ih =>
      intro trace hpre
      obtain ⟨argv, hsplit, hor⟩ := hpre p (by simp)
      cases argv with
      | nil =>
          simp only [List.cons_append, runBuildSteps, hsplit]
          simp only [List.append_eq]
          rw [ih trace (fun y hy => hpre y (by simp [hy]))]
          simp [parsedSteps, List.filterMap_cons, hsplit]
      | cons a as =>
          have hz : exec (a :: as) = 0 := by
            rcases hor with h | h
            · cases h
            · exact h
          simp only [List.cons_append, runBuildSteps, hsplit, hz, if_pos]
          simp only [List.append_eq]
          rw [ih (trace ++ [a :: as]) (fun y hy => hpre y (by simp [hy]))]
          simp [parsedSteps, List.filterMap_cons, hsplit]

/-- Claim C6: a configured custom build command sequence is tokenized with
shell-word splitting (`shlexSplit`) and executed in order; the first step
exiting nonzero aborts the run, so the spawned processes are exactly the
argvs of the earlier steps followed by the failing step's argv (no later
step runs), and the resulting error — whose rendered message contains the
command string and its exit status — names both. -/
theorem C6_theorem (exec : List String → Int) (cfg : RevolveConfig) (targetDir : String)
    (pre post : List String) (c : String) (argvc : List String)
    (hcfg : cfg.build_command = some (.sequence (pre ++ c :: post)))
    (hpre : ∀ p ∈ pre, ∃ argv, shlexSplit p = some argv ∧ (argv = [] ∨ exec argv = 0))
    (hc : shlexSplit c = some argvc) (hne : argvc ≠ []) (hfail : exec argvc ≠ 0) :
    execute_build_process exec cfg targetDir false =
      ((parsedSteps pre ++ [argvc]).map Effect.spawnProcess,
        some (.commandFailed c (exec argvc))) ∧
    containsStr (stepErrorMessage (.commandFailed c (exec argvc))) c ∧
    containsStr (stepErrorMessage (.commandFailed c (exec argvc))) (toString (exec argvc)) := by
  refine ⟨?_, ?_, ?_⟩
  · simp only [execute_build_process, hcfg, commandList, Bool.false_eq_true, if_false]
    rw [runBuildSteps_fail exec c argvc post hc hne hfail pre [] hpre]
    simp
  · exact containsStr_parts
      ("Custom build command failed with exit code " ++ toString (exec argvc) ++ ": `") c "`"
      _ (by simp [stepErrorMessage, strData_append, List.append_assoc])
  · exact containsStr_parts
      "Custom build command failed with exit code " (toString (exec argvc))
      (": `" ++ c ++ "`") _
      (by simp [stepErrorMessage, strData_append, List.append_assoc])

/-- Claim C6 witness: the sequence `["echo one", "false", "echo two"]`
under an exit-status oracle failing exactly on `false` spawns `echo one`
then `false` and stops with the command-failed error naming `false` and
status 1 — `echo two` is never spawned. -/
theorem C6_witness :
    execute_build_process
        (fun argv => if argv = ["false"] then 1 else 0)
        ⟨"t.spec", none, none, none,
          some (.sequence ["echo one", "false", "echo two"]), none, none, none⟩
        "tgt" false =
      ([Effect.spawnProcess ["echo", "one"], Effect.spawnProcess ["false"]],
        some (.commandFailed "false" 1)) := by
  have h := (C6_theorem (fun argv => if argv = ["false"] then 1 else 0)
    ⟨"t.spec", none, none, none,
      some (.sequence ["echo one", "false", "echo two"]), none, none, none⟩
    "tgt" ["echo one"] ["echo two"] "false" ["false"] rfl
    (by
      intro p hp
      simp at hp
      subst hp
      exact ⟨["echo", "one"], rfl, Or.inr rfl⟩)
    rfl (by simp) (by simp)).1
  simpa [parsedSteps] using h

/-! ## Claim C5 — `verify_package` reports every mismatch at once -/

theorem except_bind_ok {ε α β : Type} (x : α) (f : α → Except ε β) :
    (Except.ok x >>= f : Except ε β) = f x := rfl

theorem assetIssues_eq_spec (entries : List RpmFileEntry) (a : Asset)
    (h : ∀ ms, a.mode = some ms → (parseOctal ms).isSome) :
    assetIssues entries a = .ok (specAssetMismatch entries a) := by
  cases hl : lookupFileEntry entries a.dest with
  | none => simp [assetIssues, specAssetMismatch, hl]
  | some fe =>
      cases hm : a.mode with
      | none => simp [assetIssues, specAssetMismatch, hl, hm]
      | some ms =>
          cases hp : parseOctal ms with
          | none =>
              have hs := h ms hm
              rw [hp] at hs
              simp at hs
          | some m => simp [assetIssues, specAssetMismatch, hl, hm, hp]

theorem foldIssues_eq_spec (entries : List RpmFileEntry) :
    ∀ (l : List Asset) (acc : Nat),
      (∀ a ∈ l, ∀ ms, a.mode = some ms → (parseOctal ms).isSome) →
      (l.foldlM (fun acc a => do
          let n ← assetIssues entries a
          pure (acc + n)) acc : Except VerifyError Nat) =
        .ok (acc + (l.map (specAssetMismatch entries)).sum) := by
  intro l
  induction l with
  | nil =>
      intro acc _
      simp
      rfl
  | cons a as ih =>
      intro acc h
      rw [List.foldlM_cons]
      rw [assetIssues_eq_spec entries a (h a (by simp))]
      rw [except_bind_ok]
      show (as.foldlM _ (acc + specAssetMismatch entries a) : Except VerifyError Nat) = _
      rw [ih (acc + specAssetMismatch entries a) (fun x hx => h x (by simp [hx]))]
      simp [Nat.add_assoc]

/-- Claim C5: `verify_package` checks name, version, optional license and
summary, and every declared asset's destination and (masked, low-12-bit)
permission mode without aborting at the first mismatch: whenever every
declared mode string parses, it succeeds exactly when the total number of
mismatches is zero, and otherwise fails carrying that total count. -/
theorem C5_theorem (rpm : RpmMetadata) (pkg : PkgInfo) (cfg : RevolveConfig)
    (hmodes : ∀ a ∈ cfg.assets.getD [], ∀ ms, a.mode = some ms → (parseOctal ms).isSome) :
    verify_package rpm pkg cfg =
      (if specMismatchCount rpm pkg cfg = 0 then .ok ()
       else .error (.issuesFound (specMismatchCount rpm pkg cfg))) := by
  unfold verify_package specMismatchCount
  cases hassets : cfg.assets with
  | none =>
      simp only [hassets, Option.getD_none, List.map_nil, List.sum_nil, Nat.add_zero]
      rcases Nat.eq_zero_or_pos
        ((if rpm.name = pkg.name then 0 else 1)
          + (if rpm.version = pkg.version then 0 else 1)
          + (match cfg.verify_license with
             | none => 0
             | some l => if rpm.license.getD "N/A" = l then 0 else 1)
          + (match cfg.verify_summary with
             | none => 0
             | some s => if rpm.summary.getD "N/A" = s then 0 else 1)) with h | h
      · simp [h, except_bind_ok]
        rfl
      · have hne : ¬ _ = 0 := Nat.pos_iff_ne_zero.mp h
        simp [except_bind_ok, h, hne]
        rfl
  | some l =>
      rw [hassets] at hmodes
      simp only [hassets, Option.getD_some]
      rw [foldIssues_eq_spec rpm.fileEntries l _ hmodes]
      rw [except_bind_ok]
      rcases Nat.eq_zero_or_pos
        ((if rpm.name = pkg.name then 0 else 1)
          + (if rpm.version = pkg.version then 0 else 1)
          + (match cfg.verify_license with
             | none => 0
             | some li => if rpm.license.getD "N/A" = li then 0 else 1)
          + (match cfg.verify_summary with
             | none => 0
             | some su => if rpm.summary.getD "N/A" = su then 0 else 1)
          + (l.map (specAssetMismatch rpm.fileEntries)).sum) with h | h
      · simp [h]
        rfl
      · have hne : ¬ _ = 0 := Nat.pos_iff_ne_zero.mp h
        simp [h, hne]
        rfl

/-- Claim C5 witness: a package whose name differs AND whose single asset
has the wrong permission bits produces exactly two counted issues in one
run (the first mismatch does not abort the check). -/
theorem C5_witness :
    verify_package
        ⟨"other", "1.0.0", none, none, [⟨"/usr/bin/app", 0o100644⟩]⟩
        ⟨"pkg", "1.0.0", none, none⟩
        ⟨"t.spec", none, none, none, none,
          some [⟨"app", "/usr/bin/app", some "755", true⟩], none, none⟩ =
      .error (.issuesFound 2) := by
  have h := C5_theorem
    ⟨"other", "1.0.0", none, none, [⟨"/usr/bin/app", 0o100644⟩]⟩
    ⟨"pkg", "1.0.0", none, none⟩
    ⟨"t.spec", none, none, none, none,
      some [⟨"app", "/usr/bin/app", some "755", true⟩], none, none⟩
    (by
      intro a ha ms hm
      simp at ha
      subst ha
      simp at hm
      subst hm
      rfl)
  rw [h]
  rfl

/-! ## Claims C2 and C9 — directory-asset expansion -/

theorem processWalkEntries_ok_files (a : Asset) (destBase : RPath) :
    ∀ (entries : List (List String × Bool)) (st st' : ExpandState),
      processWalkEntries a destBase st entries = .ok st' →
      st'.finalAssets =
        st.finalAssets ++ (walkFiles entries).map (mkExpandedAsset a destBase) := by
  intro entries
  induction entries with
  | nil =>
      intro st st' h
      simp only [processWalkEntries] at h
      cases h
      simp [walkFiles]
  | cons e rest ih =>
      intro st st' h
      obtain ⟨rel, isDir⟩ := e
      cases isDir with
      | true =>
          simp only [processWalkEntries, if_true] at h
          cases hm : a.mkdir <;> rw [hm] at h
          · have := ih _ _ h
            simpa [walkFiles] using this
          · have := ih _ _ h
            simpa [walkFiles] using this
      | false =>
          simp only [processWalkEntries] at h
          cases hl : lookupDest st.destinationMap (destBase.join rel) with
          | some existing => rw [hl] at h; cases h
          | none =>
              rw [hl] at h
              have := ih _ _ h
              simp only [walkFiles, List.filter_cons] at *
              simpa [List.append_assoc] using this

theorem processWalkEntries_mkdirFalse_dirs (a : Asset) (destBase : RPath)
    (hmk : a.mkdir = false) :
    ∀ (entries : List (List String × Bool)) (st st' : ExpandState),
      processWalkEntries a destBase st entries = .ok st' →
      st'.uniqueDirs = st.uniqueDirs := by
  intro entries
  induction entries with
  | nil =>
      intro st st' h
      simp only [processWalkEntries] at h
      cases h
      rfl
  | cons e rest ih =>
      intro st st' h
      obtain ⟨rel, isDir⟩ := e
      cases isDir with
      | true =>
          simp only [processWalkEntries, if_true, hmk, Bool.false_eq_true, if_false] at h
          exact ih _ _ h
      | false =>
          simp only [processWalkEntries, Bool.false_eq_true, if_false] at h
          cases hl : lookupDest st.destinationMap (destBase.join rel) with
          | some existing => rw [hl] at h; cases h
          | none =>
              rw [hl] at h
              have hmid := ih _ _ h
              exact hmid

/-- Claim C2: a directory asset with `mkdir = false` (isolated as the sole
declaration, so that its own contribution is observable) contributes no
path at all to the returned directory set — neither its top-level
destination nor any walked subdirectory — while every regular file found
under the walked directory still appears, in walk order, as an expanded
file asset of the returned manifest. -/
theorem C2_theorem (fs : FS) (a : Asset) (children : List FsTree)
    (hdir : strEndsWith a.source "/" = true) (hmk : a.mkdir = false)
    (hfs : fs a.source = some children) (files : List Asset) (dirs : List String)
    (hok : expand_assets fs [a] = .ok (files, dirs)) :
    dirs = [] ∧
    files = (walkFiles (walkDir children)).map (mkExpandedAsset a (parsePath a.dest)) := by
  simp only [expand_assets, List.foldlM_cons, List.foldlM_nil, processAsset, hdir, hfs,
    hmk, Bool.false_eq_true, if_false, if_true] at hok
  cases hpw : processWalkEntries a (parsePath a.dest) ⟨[], [], []⟩ (walkDir children) with
  | error e => rw [hpw] at hok; cases hok
  | ok st =>
      rw [hpw] at hok
      have h1 := processWalkEntries_ok_files a (parsePath a.dest) (walkDir children) _ _ hpw
      have h2 := processWalkEntries_mkdirFalse_dirs a (parsePath a.dest) hmk
        (walkDir children) _ _ hpw
      simp only [List.nil_append] at h1
      cases hok
      constructor
      · rw [h2]
        rfl
      · exact h1

/-- Claim C2 witness: the scenario directory `config/` containing `a.toml`
and `nested/b.toml`, declared with `mkdir = false`, expands to exactly its
two file assets and an empty directory set. -/
theorem C2_witness :
    ([] : List String) = [] ∧
    ([⟨"config/a.toml", "/etc/app/conf.d/a.toml", none, false⟩,
      ⟨"config/nested/b.toml", "/etc/app/conf.d/nested/b.toml", none, false⟩] : List Asset) =
      (walkFiles (walkDir [FsTree.file "a.toml", FsTree.dir "nested" [FsTree.file "b.toml"]])).map
        (mkExpandedAsset ⟨"config/", "/etc/app/conf.d", none, false⟩
          (parsePath "/etc/app/conf.d")) :=
  C2_theorem
    (fun s => if s = "config/" then
        some [FsTree.file "a.toml", FsTree.dir "nested" [FsTree.file "b.toml"]]
      else none)
    ⟨"config/", "/etc/app/conf.d", none, false⟩
    [FsTree.file "a.toml", FsTree.dir "nested" [FsTree.file "b.toml"]]
    rfl rfl rfl
    [⟨"config/a.toml", "/etc/app/conf.d/a.toml", none, false⟩,
     ⟨"config/nested/b.toml", "/etc/app/conf.d/nested/b.toml", none, false⟩]
    [] rfl

/-- Claim C9: every file asset produced by expanding a directory asset
(isolated as the sole declaration) inherits the original declaration's
`mode` and `mkdir` values unchanged. -/
theorem C9_theorem (fs : FS) (a : Asset) (children : List FsTree)
    (hdir : strEndsWith a.source "/" = true) (hfs : fs a.source = some children)
    (files : List Asset) (dirs : List String)
    (hok : expand_assets fs [a] = .ok (files, dirs)) :
    ∀ f ∈ files, f.mode = a.mode ∧ f.mkdir = a.mkdir := by
  simp only [expand_assets, List.foldlM_cons, List.foldlM_nil, processAsset, hdir, hfs,
    if_true] at hok
  cases hm : a.mkdir <;> rw [hm] at hok
  · cases hpw : processWalkEntries a (parsePath a.dest) ⟨[], [], []⟩ (walkDir children) with
    | error e => simp only [Bool.false_eq_true, if_false, hpw] at hok; cases hok
    | ok st =>
        simp only [Bool.false_eq_true, if_false, hpw] at hok
        have h1 := processWalkEntries_ok_files a (parsePath a.dest) (walkDir children) _ _ hpw
        simp only [List.nil_append] at h1
        cases hok
        intro f hf
        rw [h1] at hf
        obtain ⟨rel, _, rfl⟩ := List.mem_map.mp hf
        exact ⟨rfl, hm⟩
  · cases hpw : processWalkEntries a (parsePath a.dest)
        ⟨[], [], insertDir [] (parsePath a.dest)⟩ (walkDir children) with
    | error e => simp only [if_true, hpw] at hok; cases hok
    | ok st =>
        simp only [if_true, hpw] at hok
        have h1 := processWalkEntries_ok_files a (parsePath a.dest) (walkDir children) _ _ hpw
        simp only [List.nil_append] at h1
        cases hok
        intro f hf
        rw [h1] at hf
        obtain ⟨rel, _, rfl⟩ := List.mem_map.mp hf
        exact ⟨rfl, hm⟩

/-- Claim C9 witness: with a declared mode `644` and `mkdir = true`, the
expanded file asset for `nested/b.toml` carries the declaration's mode
`644` and `mkdir = true`. -/
theorem C9_witness :
    (⟨"config/nested/b.toml", "/etc/app/conf.d/nested/b.toml", some "644", true⟩ :
        Asset).mode =
      (⟨"config/", "/etc/app/conf.d", some "644", true⟩ : Asset).mode ∧
    (⟨"config/nested/b.toml", "/etc/app/conf.d/nested/b.toml", some "644", true⟩ :
        Asset).mkdir =
      (⟨"config/", "/etc/app/conf.d", some "644", true⟩ : Asset).mkdir :=
  C9_theorem
    (fun s => if s = "config/" then
        some [FsTree.file "a.toml", FsTree.dir "nested" [FsTree.file "b.toml"]]
      else none)
    ⟨"config/", "/etc/app/conf.d", some "644", true⟩
    [FsTree.file "a.toml", FsTree.dir "nested" [FsTree.file "b.toml"]]
    rfl rfl
    [⟨"config/a.toml", "/etc/app/conf.d/a.toml", some "644", true⟩,
     ⟨"config/nested/b.toml", "/etc/app/conf.d/nested/b.toml", some "644", true⟩]
    ["/etc/app/conf.d", "/etc/app/conf.d/nested"] rfl
    ⟨"config/nested/b.toml", "/etc/app/conf.d/nested/b.toml", some "644", true⟩
    (by decide)

/-! ## Claim C1 — duplicate destinations are a hard error naming both sources -/

theorem walkFiles_nil : walkFiles [] = [] := rfl

theorem walkFiles_cons_dir (rel : List String) (rest : List (List String × Bool)) :
    walkFiles ((rel, true) :: rest) = walkFiles rest := by
  simp [walkFiles]

theorem walkFiles_cons_file (rel : List String) (rest : List (List String × Bool)) :
    walkFiles ((rel, false) :: rest) = rel :: walkFiles rest := by
  simp [walkFiles]

theorem lookupDest_none_iff (m : List (RPath × String)) (d : RPath) :
    lookupDest m d = none ↔ ∀ kv ∈ m, kv.1 ≠ d := by
  simp [lookupDest, List.find?_eq_none]

theorem mem_destKeys (st : ExpandState) (d : RPath) :
    d ∈ destKeys st ↔ ∃ kv ∈ st.destinationMap, kv.1 = d := by
  simp [destKeys, List.mem_map]

/-- During a walk, every already-recorded key stays and every walked
regular file's destination is recorded, when the walk succeeds. -/
theorem processWalkEntries_keys (a : Asset) (destBase : RPath) :
    ∀ (entries : List (List String × Bool)) (st st' : ExpandState),
      processWalkEntries a destBase st entries = .ok st' →
      (∀ d, d ∈ destKeys st → d ∈ destKeys st') ∧
      (∀ rel ∈ walkFiles entries, destBase.join rel ∈ destKeys st') := by
  intro entries
  induction entries with
  | nil =>
      intro st st' h
      simp only [processWalkEntries] at h
      cases h
      exact ⟨fun d hd => hd, by simp [walkFiles_nil]⟩
  | cons e rest ih =>
      intro st st' h
      obtain ⟨rel, isDir⟩ := e
      cases isDir with
      | true =>
          simp only [processWalkEntries, if_true] at h
          cases hm : a.mkdir <;> rw [hm] at h
          · have := ih _ _ h
            exact ⟨this.1, by
              intro r hr
              rw [walkFiles_cons_dir] at hr
              exact this.2 r hr⟩
          · have := ih _ _ h
            refine ⟨fun d hd => this.1 d hd, ?_⟩
            intro r hr
            rw [walkFiles_cons_dir] at hr
            exact this.2 r hr
      | false =>
          simp only [processWalkEntries, Bool.false_eq_true, if_false] at h
          cases hl : lookupDest st.destinationMap (destBase.join rel) with
          | some existing => rw [hl] at h; cases h
          | none =>
              rw [hl] at h
              have hrec := ih _ _ h
              have hmono : ∀ d, d ∈ destKeys st → d ∈ destKeys st' := by
                intro d hd
                refine hrec.1 d ?_
                simp only [destKeys, List.map_append] at *
                exact List.mem_append_left _ hd
              refine ⟨hmono, ?_⟩
              intro r hr
              rw [walkFiles_cons_file] at hr
              rcases List.mem_cons.mp hr with hr | hr
              · subst hr
                refine hrec.1 _ ?_
                simp [destKeys]
              · exact hrec.2 r hr

/-- If a walked regular file's destination is already recorded, the walk
fails. -/
theorem processWalkEntries_err (a : Asset) (destBase : RPath) :
    ∀ (entries : List (List String × Bool)) (st : ExpandState) (rel : List String),
      rel ∈ walkFiles entries → destBase.join rel ∈ destKeys st →
      ∃ e, processWalkEntries a destBase st entries = .error e := by
  intro entries
  induction entries with
  | nil =>
      intro st rel hr
      rw [walkFiles_nil] at hr
      cases hr
  | cons e rest ih =>
      intro st rel hr hk
      obtain ⟨r0, isDir⟩ := e
      cases isDir with
      | true =>
          rw [walkFiles_cons_dir] at hr
          cases hm : a.mkdir with
          | false =>
              obtain ⟨e, he⟩ := ih st rel hr hk
              refine ⟨e, ?_⟩
              simp only [processWalkEntries, if_true, hm, Bool.false_eq_true, if_false]
              exact he
          | true =>
              obtain ⟨e, he⟩ := ih { st with
                  uniqueDirs := insertDir st.uniqueDirs (destBase.join r0) } rel hr hk
              refine ⟨e, ?_⟩
              simp only [processWalkEntries, if_true, hm]
              exact he
      | false =>
          rw [walkFiles_cons_file] at hr
          cases hl : lookupDest st.destinationMap (destBase.join r0) with
          | some existing =>
              refine ⟨.duplicateDestination (destBase.join r0).render existing a.source, ?_⟩
              simp only [processWalkEntries, Bool.false_eq_true, if_false, hl]
          | none =>
              rcases List.mem_cons.mp hr with hr0 | hr0
              · exfalso
                subst hr0
                have := (lookupDest_none_iff _ _).mp hl
                obtain ⟨kv, hkv, hkv1⟩ := (mem_destKeys st _).mp hk
                exact this kv hkv hkv1
              · obtain ⟨e, he⟩ := ih
                  { st with
                      finalAssets := st.finalAssets ++ [mkExpandedAsset a destBase r0],
                      destinationMap := st.destinationMap ++ [(destBase.join r0, a.source)] }
                  rel hr0
                  (by
                    simp only [destKeys, List.map_append] at *
                    exact List.mem_append_left _ hk)
                refine ⟨e, ?_⟩
                simp only [processWalkEntries, Bool.false_eq_true, if_false, hl]
                exact he

/-- A failing walk can only fail with a duplicate-destination error. -/
theorem processWalkEntries_err_shape (a : Asset) (destBase : RPath) :
    ∀ (entries : List (List String × Bool)) (st : ExpandState) (e : BuildError),
      processWalkEntries a destBase st entries = .error e →
      ∃ d s1 s2, e = .duplicateDestination d s1 s2 := by
  intro entries
  induction entries with
  | nil =>
      intro st e h
      simp only [processWalkEntries] at h
      cases h
  | cons en rest ih =>
      intro st e h
      obtain ⟨rel, isDir⟩ := en
      cases isDir with
      | true =>
          simp only [processWalkEntries, if_true] at h
          cases hm : a.mkdir <;> rw [hm] at h
          · exact ih _ _ h
          · exact ih _ _ h
      | false =>
          simp only [processWalkEntries, Bool.false_eq_true, if_false] at h
          cases hl : lookupDest st.destinationMap (destBase.join rel) with
          | some existing =>
              rw [hl] at h
              cases h
              exact ⟨_, _, _, rfl⟩
          | none =>
              rw [hl] at h
              exact ih _ _ h

theorem processAsset_dir_eq (fs : FS) (st : ExpandState) (a : Asset)
    (children : List FsTree) (hdir : strEndsWith a.source "/" = true)
    (hfs : fs a.source = some children) :
    processAsset fs st a =
      processWalkEntries a (parsePath a.dest)
        { st with uniqueDirs :=
            if a.mkdir then insertDir st.uniqueDirs (parsePath a.dest) else st.uniqueDirs }
        (walkDir children) := by
  simp only [processAsset, hdir, if_true, hfs]
  cases a.mkdir <;> rfl

theorem processAsset_file_cases (fs : FS) (st : ExpandState) (a : Asset)
    (hdir : strEndsWith a.source "/" = false) :
    (∃ existing, lookupDest st.destinationMap (parsePath a.dest) = some existing ∧
      processAsset fs st a =
        .error (.duplicateDestination (parsePath a.dest).render existing a.source)) ∨
    (lookupDest st.destinationMap (parsePath a.dest) = none ∧
      ∃ dirs, processAsset fs st a =
        .ok ⟨st.finalAssets ++ [a],
          st.destinationMap ++ [(parsePath a.dest, a.source)], dirs⟩) := by
  cases hl : lookupDest st.destinationMap (parsePath a.dest) with
  | some existing =>
      refine Or.inl ⟨existing, rfl, ?_⟩
      simp only [processAsset, hdir, Bool.false_eq_true, if_false]
      cases hm : a.mkdir with
      | false => simp [hl]
      | true =>
          cases hp : (parsePath a.dest).parentPath with
          | none => simp [hl, hp]
          | some parent => cases hc : parent.hasComponent <;> simp [hl, hp, hc]
  | none =>
      refine Or.inr ⟨rfl, ?_⟩
      simp only [processAsset, hdir, Bool.false_eq_true, if_false]
      cases hm : a.mkdir with
      | false =>
          exact ⟨st.uniqueDirs, by simp [hl]⟩
      | true =>
          cases hp : (parsePath a.dest).parentPath with
          | none => exact ⟨st.uniqueDirs, by simp [hl, hp]⟩
          | some parent =>
              cases hc : parent.hasComponent with
              | false => exact ⟨st.uniqueDirs, by simp [hl, hp, hc]⟩
              | true => exact ⟨insertDir st.uniqueDirs parent, by simp [hl, hp, hc]⟩

theorem processAsset_keys (fs : FS) (st : ExpandState) (a : Asset) (st' : ExpandState)
    (h : processAsset fs st a = .ok st') :
    (∀ d, d ∈ destKeys st → d ∈ destKeys st') ∧
    (∀ d ∈ resolvedDests fs a, d ∈ destKeys st') := by
  cases hdir : strEndsWith a.source "/" with
  | true =>
      cases hfs : fs a.source with
      | none =>
          simp only [processAsset, hdir, if_true, hfs] at h
          cases h
      | some children =>
          rw [processAsset_dir_eq fs st a children hdir hfs] at h
          have hw := processWalkEntries_keys a (parsePath a.dest) (walkDir children) _ _ h
          refine ⟨fun d hd => hw.1 d hd, ?_⟩
          intro d hd
          simp only [resolvedDests, hdir, if_true, hfs] at hd
          obtain ⟨rel, hrel, rfl⟩ := List.mem_map.mp hd
          exact hw.2 rel hrel
  | false =>
      rcases processAsset_file_cases fs st a hdir with
        ⟨existing, _, heq⟩ | ⟨_, dirs, heq⟩
      · rw [heq] at h; cases h
      · rw [heq] at h
        cases h
        constructor
        · intro d hd
          simp only [destKeys, List.map_append]
          exact List.mem_append_left _ hd
        · intro d hd
          simp only [resolvedDests, hdir, Bool.false_eq_true, if_false,
            List.mem_singleton] at hd
          subst hd
          simp [destKeys]

theorem processAsset_err_of_mem (fs : FS) (st : ExpandState) (a : Asset) (d : RPath)
    (hd : d ∈ resolvedDests fs a) (hk : d ∈ destKeys st) :
    ∃ e, processAsset fs st a = .error e := by
  cases hdir : strEndsWith a.source "/" with
  | true =>
      cases hfs : fs a.source with
      | none =>
          simp only [resolvedDests, hdir, if_true, hfs] at hd
          cases hd
      | some children =>
          simp only [resolvedDests, hdir, if_true, hfs] at hd
          obtain ⟨rel, hrel, rfl⟩ := List.mem_map.mp hd
          rw [processAsset_dir_eq fs st a children hdir hfs]
          exact processWalkEntries_err a (parsePath a.dest) (walkDir children) _ rel hrel hk
  | false =>
      simp only [resolvedDests, hdir, Bool.false_eq_true, if_false,
        List.mem_singleton] at hd
      subst hd
      rcases processAsset_file_cases fs st a hdir with
        ⟨existing, _, heq⟩ | ⟨hl, dirs, heq⟩
      · exact ⟨_, heq⟩
      · exfalso
        have hnone := (lookupDest_none_iff _ _).mp hl
        obtain ⟨kv, hkv, hkv1⟩ := (mem_destKeys st _).mp hk
        exact hnone kv hkv hkv1

theorem processAsset_err_shape (fs : FS) (st : ExpandState) (a : Asset) (e : BuildError)
    (h : processAsset fs st a = .error e)
    (hv : strEndsWith a.source "/" = true → (fs a.source).isSome) :
    ∃ d s1 s2, e = .duplicateDestination d s1 s2 := by
  cases hdir : strEndsWith a.source "/" with
  | true =>
      cases hfs : fs a.source with
      | none =>
          have := hv hdir
          rw [hfs] at this
          simp at this
      | some children =>
          rw [processAsset_dir_eq fs st a children hdir hfs] at h
          exact processWalkEntries_err_shape a (parsePath a.dest) (walkDir children) _ _ h
  | false =>
      rcases processAsset_file_cases fs st a hdir with
        ⟨existing, _, heq⟩ | ⟨_, dirs, heq⟩
      · rw [heq] at h
        cases h
        exact ⟨_, _, _, rfl⟩
      · rw [heq] at h
        cases h

theorem foldl_processAsset_keys (fs : FS) :
    ∀ (l : List Asset) (st st' : ExpandState),
      (List.foldlM (processAsset fs) st l : Except BuildError ExpandState) = .ok st' →
      ∀ d, d ∈ destKeys st → d ∈ destKeys st' := by
  intro l
  induction l with
  | nil =>
      intro st st' h d hd
      simp only [List.foldlM_nil] at h
      cases h
      exact hd
  | cons a as ih =>
      intro st st' h d hd
      rw [List.foldlM_cons] at h
      cases hp : processAsset fs st a with
      | error e => rw [hp] at h; cases h
      | ok mid =>
          rw [hp, except_bind_ok] at h
          exact ih mid st' h d ((processAsset_keys fs st a mid hp).1 d hd)

theorem foldl_processAsset_err (fs : FS) :
    ∀ (l : List Asset) (st : ExpandState) (e : BuildError),
      (List.foldlM (processAsset fs) st l : Except BuildError ExpandState) = .error e →
      ∃ a ∈ l, ∃ stx, processAsset fs stx a = .error e := by
  intro l
  induction l with
  | nil =>
      intro st e h
      simp only [List.foldlM_nil] at h
      cases h
  | cons a as ih =>
      intro st e h
      rw [List.foldlM_cons] at h
      cases hp : processAsset fs st a with
      | error e0 =>
          rw [hp] at h
          cases h
          exact ⟨a, by simp, st, hp⟩
      | ok mid =>
          rw [hp, except_bind_ok] at h
          obtain ⟨x, hx, stx, hxe⟩ := ih mid e h
          exact ⟨x, by simp [hx], stx, hxe⟩

/-- Claim C1: whenever two declared assets (file assets or files produced
by expanding directory assets, in any positions of the list) resolve to
the same destination path, `expand_assets` — given that every directory
asset's source is a directory, so that no earlier invalid-source error
preempts the scan — returns a duplicate-destination error instead of a
manifest, and the rendered error message names both recorded contributing
sources. -/
theorem C1_theorem (fs : FS) (l1 l2 l3 : List Asset) (a b : Asset) (d : RPath)
    (hvalid : ∀ x ∈ l1 ++ a :: (l2 ++ b :: l3),
      strEndsWith x.source "/" = true → (fs x.source).isSome)
    (hda : d ∈ resolvedDests fs a) (hdb : d ∈ resolvedDests fs b) :
    ∃ dst s1 s2,
      expand_assets fs (l1 ++ a :: (l2 ++ b :: l3)) =
        .error (.duplicateDestination dst s1 s2) ∧
      containsStr (buildErrorMessage (.duplicateDestination dst s1 s2)) s1 ∧
      containsStr (buildErrorMessage (.duplicateDestination dst s1 s2)) s2 := by
  have herr : ∃ e, (List.foldlM (processAsset fs) (⟨[], [], []⟩ : ExpandState)
      (l1 ++ a :: (l2 ++ b :: l3)) : Except BuildError ExpandState) = .error e := by
    cases hres : (List.foldlM (processAsset fs) (⟨[], [], []⟩ : ExpandState)
        (l1 ++ a :: (l2 ++ b :: l3)) : Except BuildError ExpandState) with
    | error e => exact ⟨e, rfl⟩
    | ok stF =>
        exfalso
        rw [List.foldlM_append] at hres
        cases h1 : (List.foldlM (processAsset fs) (⟨[], [], []⟩ : ExpandState) l1 :
            Except BuildError ExpandState) with
        | error e => rw [h1] at hres; cases hres
        | ok st1 =>
            rw [h1, except_bind_ok, List.foldlM_cons] at hres
            cases h2 : processAsset fs st1 a with
            | error e => rw [h2] at hres; cases hres
            | ok st2 =>
                rw [h2, except_bind_ok, List.foldlM_append] at hres
                cases h3 : (List.foldlM (processAsset fs) st2 l2 :
                    Except BuildError ExpandState) with
                | error e => rw [h3] at hres; cases hres
                | ok st3 =>
                    rw [h3, except_bind_ok, List.foldlM_cons] at hres
                    have hd2 : d ∈ destKeys st2 :=
                      (processAsset_keys fs st1 a st2 h2).2 d hda
                    have hd3 : d ∈ destKeys st3 :=
                      foldl_processAsset_keys fs l2 st2 st3 h3 d hd2
                    obtain ⟨e, he⟩ := processAsset_err_of_mem fs st3 b d hdb hd3
                    rw [he] at hres
                    cases hres
  obtain ⟨e, he⟩ := herr
  obtain ⟨x, hx, stx, hxe⟩ := foldl_processAsset_err fs _ _ e he
  obtain ⟨dst, s1, s2, rfl⟩ := processAsset_err_shape fs stx x _ hxe (hvalid x hx)
  refine ⟨dst, s1, s2, ?_, ?_, ?_⟩
  · simp only [expand_assets]
    rw [he]
    rfl
  · exact containsStr_parts
      ("Duplicate asset destination found: '" ++ dst ++ "'.\n  - Provided by source: '")
      s1 ("'\n  - Also provided by source: '" ++ s2 ++ "'") _
      (by simp [buildErrorMessage, strData_append, List.append_assoc])
  · exact containsStr_parts
      ("Duplicate asset destination found: '" ++ dst ++ "'.\n  - Provided by source: '"
        ++ s1 ++ "'\n  - Also provided by source: '")
      s2 "'" _
      (by simp [buildErrorMessage, strData_append, List.append_assoc])

/-- Claim C1 witness: the scenario assets `{source: "x.txt", dest: "/a/f"}`
and `{source: "y.txt", dest: "/a/f"}` fail expansion with a
duplicate-destination error whose message mentions both `x.txt` and
`y.txt`. -/
theorem C1_witness :
    ∃ dst s1 s2,
      expand_assets (fun _ => none)
          [⟨"x.txt", "/a/f", none, true⟩, ⟨"y.txt", "/a/f", none, true⟩] =
        .error (.duplicateDestination dst s1 s2) ∧
      containsStr (buildErrorMessage (.duplicateDestination dst s1 s2)) s1 ∧
      containsStr (buildErrorMessage (.duplicateDestination dst s1 s2)) s2 :=
  C1_theorem (fun _ => none) [] [] [] ⟨"x.txt", "/a/f", none, true⟩
    ⟨"y.txt", "/a/f", none, true⟩ (parsePath "/a/f")
    (by
      intro x hx htrue
      exfalso
      simp at hx
      rcases hx with hx | hx <;> subst hx <;> exact absurd htrue (by decide))
    (by decide)
    (by decide)

/-! ## Claim C8 — dry runs spawn no builder and write no archive -/

theorem create_artifact_archive_dry (fileExists : String → Bool) (cfg : RevolveConfig)
    (pkg : PkgInfo) (projectDir targetDir : String) :
    create_artifact_archive fileExists cfg pkg projectDir targetDir true =
      .ok (projectDir ++ "/target/" ++ archiveFileName pkg, []) := rfl

theorem execute_build_process_spawn_only (exec : List String → Int) (cfg : RevolveConfig)
    (targetDir : String) (dryRun : Bool) :
    ∀ e ∈ (execute_build_process exec cfg targetDir dryRun).1,
      ∃ argv, e = Effect.spawnProcess argv := by
  unfold execute_build_process
  cases cfg.build_command with
  | none =>
      intro e he
      simp at he
      subst he
      exact ⟨_, rfl⟩
  | some bc =>
      cases dryRun with
      | true => intro e he; simp at he
      | false =>
          intro e he
          simp at he
          obtain ⟨argv, _, rfl⟩ := he
          exact ⟨argv, rfl⟩

theorem except_err_ne_ok {ε α : Type} (e : ε) (a : α) :
    (Except.error e : Except ε α) ≠ .ok a := fun h => Except.noConfusion h

theorem render_spec_tera_ok (tera : TemplateCtx → Except String String)
    (readFile : String → Option String) (cfg : RevolveConfig) (pkg : PkgInfo)
    (buildDir : String) (createdDirs : Option (List String)) (rendered : String)
    (ht : tera (mkTemplateCtx cfg pkg (cfg.changelog.bind readFile) createdDirs) =
      .ok rendered) :
    render_spec true tera readFile cfg pkg buildDir createdDirs =
      .ok (buildDir ++ "/" ++ pkg.name ++ "-" ++ pkg.version ++ ".spec", rendered,
        [Effect.writeFile (buildDir ++ "/" ++ pkg.name ++ "-" ++ pkg.version ++ ".spec")]) := by
  unfold render_spec
  simp [ht]

theorem render_spec_tera_err (tera : TemplateCtx → Except String String)
    (readFile : String → Option String) (cfg : RevolveConfig) (pkg : PkgInfo)
    (buildDir : String) (createdDirs : Option (List String)) (msg : String)
    (ht : tera (mkTemplateCtx cfg pkg (cfg.changelog.bind readFile) createdDirs) =
      .error msg) :
    render_spec true tera readFile cfg pkg buildDir createdDirs =
      .error (.templateRenderFailed msg) := by
  unfold render_spec
  simp [ht]

theorem render_spec_noLoad (tera : TemplateCtx → Except String String)
    (readFile : String → Option String) (cfg : RevolveConfig) (pkg : PkgInfo)
    (buildDir : String) (createdDirs : Option (List String)) :
    render_spec false tera readFile cfg pkg buildDir createdDirs =
      .error (.templateLoadFailed cfg.spec_template) := by
  unfold render_spec
  simp

/-- Claim C8: every dry-run pipeline execution that succeeds spawns no
rpmbuild process and writes no archive file, yet (when the archive step is
not skipped) `create_artifact_archive`'s deterministic would-be archive
path is still returned for the dry-run report. -/
theorem C8_theorem (rpmbuildFound : Bool) (exec : List String → Int) (fs : FS)
    (fileExists : String → Bool) (readFile : String → Option String)
    (templateLoadOk : Bool) (tera : TemplateCtx → Except String String)
    (rpmbuildStatus : Int) (producedRpms : List String)
    (rpmMeta : String → Option RpmMetadata) (cfg : RevolveConfig) (pkg : PkgInfo)
    (projectDir targetDir : String) (noArchive verify revolveDirExists : Bool)
    (r : PipelineResult)
    (hok : runPipeline rpmbuildFound exec fs fileExists readFile templateLoadOk tera
      rpmbuildStatus producedRpms rpmMeta cfg pkg projectDir targetDir
      true noArchive verify revolveDirExists = .ok r) :
    (∀ args, Effect.spawnRpmbuild args ∉ r.trace) ∧
    (∀ p, Effect.writeArchive p ∉ r.trace) ∧
    (noArchive = false →
      r.archivePath = some (projectDir ++ "/target/" ++ archiveFileName pkg)) := by
  cases hrf : rpmbuildFound with
  | false =>
      rw [hrf] at hok
      exact absurd hok (except_err_ne_ok _ _)
  | true =>
      rw [hrf] at hok
      simp only [runPipeline, Bool.not_true, Bool.false_and, Bool.false_eq_true,
        if_false] at hok
      cases hbe : (execute_build_process exec cfg targetDir true).2 with
      | some e =>
          rw [hbe] at hok
          exact absurd hok (except_err_ne_ok _ _)
      | none =>
          simp only [hbe] at hok
          cases hca : cfg.assets with
          | none =>
              simp only [hca] at hok
              cases hna : noArchive with
              | true =>
                  simp only [hna, Bool.not_true, Bool.false_eq_true, if_false, reduceIte,
                    pure_bind] at hok
                  cases htl : templateLoadOk with
                  | false =>
                      rw [htl] at hok
                      simp only [render_spec_noLoad] at hok
                      exact absurd hok (except_err_ne_ok _ _)
                  | true =>
                      rw [htl] at hok
                      cases ht : tera (mkTemplateCtx cfg pkg (cfg.changelog.bind readFile) none) with
                      | error msg =>
                          simp only [render_spec_tera_err tera readFile cfg pkg _ none msg ht] at hok
                          exact absurd hok (except_err_ne_ok _ _)
                      | ok rendered =>
                          simp only [render_spec_tera_ok tera readFile cfg pkg _ none rendered ht,
                            pure_bind] at hok
                          cases hok
                          refine ⟨?_, ?_, ?_⟩
                          · intro args hmem
                            simp at hmem
                            obtain ⟨argv, heq⟩ :=
                              execute_build_process_spawn_only exec cfg targetDir true _ hmem
                            exact Effect.noConfusion heq
                          · intro p hmem
                            simp at hmem
                            obtain ⟨argv, heq⟩ :=
                              execute_build_process_spawn_only exec cfg targetDir true _ hmem
                            exact Effect.noConfusion heq
                          · intro h
                            cases h
              | false =>
                  simp only [hna, Bool.not_false, reduceIte, create_artifact_archive_dry,
                    pure_bind] at hok
                  cases htl : templateLoadOk with
                  | false =>
                      rw [htl] at hok
                      simp only [render_spec_noLoad] at hok
                      exact absurd hok (except_err_ne_ok _ _)
                  | true =>
                      rw [htl] at hok
                      cases ht : tera (mkTemplateCtx cfg pkg (cfg.changelog.bind readFile) none) with
                      | error msg =>
                          simp only [render_spec_tera_err tera readFile cfg pkg _ none msg ht] at hok
                          exact absurd hok (except_err_ne_ok _ _)
                      | ok rendered =>
                          simp only [render_spec_tera_ok tera readFile cfg pkg _ none rendered ht,
                            pure_bind] at hok
                          cases hok
                          refine ⟨?_, ?_, ?_⟩
                          · intro args hmem
                            simp at hmem
                            obtain ⟨argv, heq⟩ :=
                              execute_build_process_spawn_only exec cfg targetDir true _ hmem
                            exact Effect.noConfusion heq
                          · intro p hmem
                            simp at hmem
                            obtain ⟨argv, heq⟩ :=
                              execute_build_process_spawn_only exec cfg targetDir true _ hmem
                            exact Effect.noConfusion heq
                          · intro _
                            rfl
          | some l =>
              simp only [hca] at hok
              cases hex : expand_assets fs l with
              | error e =>
                  rw [hex] at hok
                  exact absurd hok (except_err_ne_ok _ _)
              | ok pr =>
                  obtain ⟨files, dirs⟩ := pr
                  simp only [hex] at hok
                  cases hna : noArchive with
                  | true =>
                      simp only [hna, Bool.not_true, Bool.false_eq_true, if_false, reduceIte,
                        pure_bind] at hok
                      cases htl : templateLoadOk with
                      | false =>
                          rw [htl] at hok
                          simp only [render_spec_noLoad] at hok
                          exact absurd hok (except_err_ne_ok _ _)
                      | true =>
                          rw [htl] at hok
                          cases ht : tera (mkTemplateCtx { cfg with assets := some files } pkg
                              (cfg.changelog.bind readFile) (some dirs)) with
                          | error msg =>
                              simp only [render_spec_tera_err tera readFile
                                { cfg with assets := some files } pkg _ (some dirs) msg ht] at hok
                              exact absurd hok (except_err_ne_ok _ _)
                          | ok rendered =>
                              simp only [render_spec_tera_ok tera readFile
                                { cfg with assets := some files } pkg _ (some dirs) rendered ht,
                                pure_bind] at hok
                              cases hok
                              refine ⟨?_, ?_, ?_⟩
                              · intro args hmem
                                simp at hmem
                                obtain ⟨argv, heq⟩ :=
                                  execute_build_process_spawn_only exec cfg targetDir true _ hmem
                                exact Effect.noConfusion heq
                              · intro p hmem
                                simp at hmem
                                obtain ⟨argv, heq⟩ :=
                                  execute_build_process_spawn_only exec cfg targetDir true _ hmem
                                exact Effect.noConfusion heq
                              · intro h
                                cases h
                  | false =>
                      simp only [hna, Bool.not_false, reduceIte, create_artifact_archive_dry,
                        pure_bind] at hok
                      cases htl : templateLoadOk with
                      | false =>
                          rw [htl] at hok
                          simp only [render_spec_noLoad] at hok
                          exact absurd hok (except_err_ne_ok _ _)
                      | true =>
                          rw [htl] at hok
                          cases ht : tera (mkTemplateCtx { cfg with assets := some files } pkg
                              (cfg.changelog.bind readFile) (some dirs)) with
                          | error msg =>
                              simp only [render_spec_tera_err tera readFile
                                { cfg with assets := some files } pkg _ (some dirs) msg ht] at hok
                              exact absurd hok (except_err_ne_ok _ _)
                          | ok rendered =>
                              simp only [render_spec_tera_ok tera readFile
                                { cfg with assets := some files } pkg _ (some dirs) rendered ht,
                                pure_bind] at hok
                              cases hok
                              refine ⟨?_, ?_, ?_⟩
                              · intro args hmem
                                simp at hmem
                                obtain ⟨argv, heq⟩ :=
                                  execute_build_process_spawn_only exec cfg targetDir true _ hmem
                                exact Effect.noConfusion heq
                              · intro p hmem
                                simp at hmem
                                obtain ⟨argv, heq⟩ :=
                                  execute_build_process_spawn_only exec cfg targetDir true _ hmem
                                exact Effect.noConfusion heq
                              · intro _
                                rfl

/-- Claim C8 witness: a concrete dry run (default cargo compile, archive
enabled) spawns no rpmbuild process, writes no archive file, and still
returns the deterministic would-be archive path for the report. -/
theorem C8_witness :
    (∀ args, Effect.spawnRpmbuild args ∉
      (⟨[Effect.spawnProcess ["cargo", "build", "--target-dir", "tgt", "--release"],
          Effect.createDirAll "proj/target/revolve/build",
          Effect.writeFile "proj/target/revolve/build/pkg-1.0.0.spec"],
        some "proj/target/pkg-1.0.0.tar.gz",
        "proj/target/revolve/build/pkg-1.0.0.spec", "SPEC", []⟩ : PipelineResult).trace) ∧
    (∀ p, Effect.writeArchive p ∉
      (⟨[Effect.spawnProcess ["cargo", "build", "--target-dir", "tgt", "--release"],
          Effect.createDirAll "proj/target/revolve/build",
          Effect.writeFile "proj/target/revolve/build/pkg-1.0.0.spec"],
        some "proj/target/pkg-1.0.0.tar.gz",
        "proj/target/revolve/build/pkg-1.0.0.spec", "SPEC", []⟩ : PipelineResult).trace) ∧
    (false = false →
      (⟨[Effect.spawnProcess ["cargo", "build", "--target-dir", "tgt", "--release"],
          Effect.createDirAll "proj/target/revolve/build",
          Effect.writeFile "proj/target/revolve/build/pkg-1.0.0.spec"],
        some "proj/target/pkg-1.0.0.tar.gz",
        "proj/target/revolve/build/pkg-1.0.0.spec", "SPEC", []⟩ : PipelineResult).archivePath =
        some ("proj" ++ "/target/" ++ archiveFileName ⟨"pkg", "1.0.0", none, none⟩)) :=
  C8_theorem true (fun _ => 0) (fun _ => none) (fun _ => true) (fun _ => none)
    true (fun _ => .ok "SPEC") 0 [] (fun _ => none)
    ⟨"t.spec", none, none, none, none, none, none, none⟩
    ⟨"pkg", "1.0.0", none, none⟩ "proj" "tgt" false false false
    ⟨[Effect.spawnProcess ["cargo", "build", "--target-dir", "tgt", "--release"],
      Effect.createDirAll "proj/target/revolve/build",
      Effect.writeFile "proj/target/revolve/build/pkg-1.0.0.spec"],
     some "proj/target/pkg-1.0.0.tar.gz",
     "proj/target/revolve/build/pkg-1.0.0.spec", "SPEC", []⟩
    rfl

end Revolve

